import Mathlib

/-!
# Verification of the OpenCode Discord Rich Presence plugin's PresenceManager

This development shallowly embeds the `PresenceManager` class of the plugin
(the reconnect-aware variant of the source) together with the path helper
`getProjectName`, and proves or refutes the specification's claims about them.

Modelling choices:
- The manager's mutable fields become a `PMState` structure; each method
  becomes a pure function `PMState → PMState × …`.
- The code is single-threaded and event-driven; methods are modelled as
  atomic state transformers (their effects between entry and return).  The
  one place where mid-flight interleaving matters — the `connecting`
  re-entrancy guard of `connect()` — is modelled explicitly by splitting
  `connect` into its synchronous prefix (`connectGuard`/`connectEntry`,
  everything up to and including `this.connecting = true`, which runs before
  the first `await`) and the rest (`connectBody`).
- Outcomes of the external Discord RPC calls (login, setActivity,
  clearActivity, client destroy) are supplied by an oracle `Orc` of booleans;
  `true` means the awaited call succeeds, `false` that it rejects/throws.
  Source-level `try/catch` around such a call is translated by branching on
  the oracle bit.  A second translation (`…E` functions) keeps the exception
  channel explicit as `Except` and is proved to never escape with an error.
- Each external call attempted is recorded in an event trace (`Ev`), so that
  claims about "exactly one login attempt" or "sends the payload once" are
  about the observable interaction with the external service.
- The `"disconnected"` transport event handler registered on the client is
  modelled as a separate operation `transportClosed`, enabled whenever a
  client handle exists.
- Timers are modelled by the booleans `heartbeatTimer`/`reconnectTimer`
  (interval installed or not); the interval callbacks are the operations
  `heartbeatTick`/`reconnectTick`, which fire only while the corresponding
  timer is installed.
- `Date` timestamps are `Nat`; client handles are `Option Nat`, with
  `nextHandle` a counter so that "a new client handle was created" is
  observable as a counter increment.
-/

/-- A presence payload: the `lastActivity` record
`{details, state, startTimestamp}` of the source. -/
structure Activity where
  details : String
  state : String
  startTimestamp : Nat
deriving DecidableEq

/-- One attempted call to the external Discord RPC service, with its outcome
(`true` = the awaited call succeeded). `close` is the client handle being
destroyed. -/
inductive Ev where
  | login (ok : Bool)
  | setAct (a : Activity) (ok : Bool)
  | clearAct (ok : Bool)
  | close (ok : Bool)
deriving DecidableEq

/-- Oracle for the behaviour of the external service during one operation:
whether each kind of external call, if attempted, succeeds. -/
structure Orc where
  loginOk : Bool
  sendOk : Bool
  clearOk : Bool
  closeOk : Bool
deriving DecidableEq

/-- The mutable state of a `PresenceManager` instance.  `client` is the
current client handle (by id); `nextHandle` generates fresh handle ids. -/
structure PMState where
  client : Option Nat
  connected : Bool
  connecting : Bool
  destroyed : Bool
  lastActivity : Option Activity
  heartbeatTimer : Bool
  reconnectTimer : Bool
  sessionStart : Nat
  filesEdited : Nat
  commandsRun : Nat
  projectName : String
  nextHandle : Nat
deriving DecidableEq

/-- The state of a freshly constructed `PresenceManager` (constructor plus
field initialisers). -/
def PMState.init (pn : String) (t0 : Nat) : PMState :=
  { client := none, connected := false, connecting := false, destroyed := false
    lastActivity := none, heartbeatTimer := false, reconnectTimer := false
    sessionStart := t0, filesEdited := 0, commandsRun := 0
    projectName := pn, nextHandle := 0 }

/-- `stopHeartbeat()`: clears the heartbeat interval. -/
def stopHeartbeat (s : PMState) : PMState :=
  { s with heartbeatTimer := false }

/-- `startHeartbeat()`: `stopHeartbeat()` then installs the interval
(net effect on the timer flag). -/
def startHeartbeat (s : PMState) : PMState :=
  { s with heartbeatTimer := true }

/-- `stopReconnectLoop()`: clears the reconnect interval. -/
def stopReconnectLoop (s : PMState) : PMState :=
  { s with reconnectTimer := false }

/-- `startReconnectLoop()`: no-op if destroyed or already running; otherwise
stops the heartbeat and installs the reconnect interval. -/
def startReconnectLoop (s : PMState) : PMState :=
  if s.destroyed || s.reconnectTimer then s
  else { s with heartbeatTimer := false, reconnectTimer := true }

/-- `sendActivity(details, state, startTimestamp)`: tries
`this.client!.user?.setActivity(...)`; on any failure (including the
`TypeError` from a null handle) the catch sets `connected = false` and starts
the reconnect loop.  `ok` is the outcome of the external call when one is
actually issued. -/
def sendActivity (ok : Bool) (a : Activity) (s : PMState) : PMState × List Ev :=
  match s.client with
  | some _ =>
    if ok then (s, [Ev.setAct a true])
    else (startReconnectLoop { s with connected := false }, [Ev.setAct a false])
  | none => (startReconnectLoop { s with connected := false }, [])

/-- The three early-return guards at the top of `connect()`, in source order:
`destroyed` → `some false`, `connected && client` → `some true`,
`connecting` → `some false`; `none` means the body runs. -/
def connectGuard (s : PMState) : Option Bool :=
  if s.destroyed then some false
  else if s.connected && s.client.isSome then some true
  else if s.connecting then some false
  else none

/-- The synchronous prefix of `connect()` past the guards:
`this.connecting = true`.  This runs before the first `await`, so a second
`connect()` issued while the first is in flight observes this state. -/
def connectEntry (s : PMState) : PMState :=
  { s with connecting := true }

/-- The body of `connect()` after the re-entrancy guard: destroy a lingering
client (errors swallowed), create a fresh client handle, attempt login.  On
login success: set `connected`, clear `connecting`, stop the reconnect loop,
replay `lastActivity` if present (via `sendActivity`, which swallows its own
failure), start the heartbeat, return `true`.  On login failure (the catch
block): clear `connected`/`connecting`, drop the handle, start the reconnect
loop, return `false`. -/
def connectBody (o : Orc) (s : PMState) : PMState × Bool × List Ev :=
  let p : PMState × List Ev :=
    match s.client with
    | some _ => ({ s with client := none }, [Ev.close o.closeOk])
    | none => (s, [])
  let s1 := { p.1 with client := some p.1.nextHandle, nextHandle := p.1.nextHandle + 1 }
  if o.loginOk then
    let s2 := stopReconnectLoop { s1 with connected := true, connecting := false }
    let q : PMState × List Ev :=
      match s2.lastActivity with
      | some a => sendActivity o.sendOk a s2
      | none => (s2, [])
    (startHeartbeat q.1, true, p.2 ++ [Ev.login true] ++ q.2)
  else
    let s2 := startReconnectLoop
      { s1 with connected := false, connecting := false, client := none }
    (s2, false, p.2 ++ [Ev.login false])

/-- `connect()`: guards, then the body on the `connecting := true` state. -/
def connect (o : Orc) (s : PMState) : PMState × Bool × List Ev :=
  match connectGuard s with
  | some b => (s, b, [])
  | none => connectBody o (connectEntry s)

/-- The details string built by `update()`: JS
`extraDetails ? proj + " · " + extraDetails : "Working on " + proj`
(`undefined` and the empty string are both falsy). -/
def mkDetails (projectName : String) (extraDetails : Option String) : String :=
  match extraDetails with
  | some d => if d = "" then "Working on " ++ projectName
              else projectName ++ " · " ++ d
  | none => "Working on " ++ projectName

/-- `update(state, extraDetails?)`: always overwrites `lastActivity` first;
then, if not connected (or no client), awaits `connect()` and returns;
otherwise sends the freshly built payload. -/
def update (o : Orc) (st : String) (ed : Option String) (s : PMState) :
    PMState × List Ev :=
  let a : Activity := ⟨mkDetails s.projectName ed, st, s.sessionStart⟩
  let s1 := { s with lastActivity := some a }
  if s1.connected && s1.client.isSome then
    sendActivity o.sendOk a s1
  else
    let r := connect o s1
    (r.1, r.2.2)

/-- `clear()`: drops `lastActivity`; if connected with a client, requests
`clearActivity` and swallows any failure. -/
def clear (o : Orc) (s : PMState) : PMState × List Ev :=
  let s1 := { s with lastActivity := none }
  if s1.connected && s1.client.isSome then (s1, [Ev.clearAct o.clearOk])
  else (s1, [])

/-- `destroy()`: sets `destroyed`, stops both timers; if a client exists,
tries `clearActivity` then `client.destroy()` inside one `try/catch` (so a
clear failure skips the close call), then nulls the handle; finally clears
`connected` and `lastActivity`. -/
def destroy (o : Orc) (s : PMState) : PMState × List Ev :=
  let s1 := { s with destroyed := true, heartbeatTimer := false, reconnectTimer := false }
  match s1.client with
  | none => ({ s1 with connected := false, lastActivity := none }, [])
  | some _ =>
    ({ s1 with client := none, connected := false, lastActivity := none },
      if o.clearOk then [Ev.clearAct true, Ev.close o.closeOk]
      else [Ev.clearAct false])

/-- `destroySync()`: sets `destroyed`, stops both timers; if a client exists,
issues a non-waited `client.destroy()` (errors swallowed, outcome unused) and
nulls the handle; clears `connected`.  It issues no clear-status call and
does not touch `lastActivity`. -/
def destroySync (o : Orc) (s : PMState) : PMState × List Ev :=
  let s1 := { s with destroyed := true, heartbeatTimer := false, reconnectTimer := false }
  match s1.client with
  | none => ({ s1 with connected := false }, [])
  | some _ => ({ s1 with client := none, connected := false }, [Ev.close o.closeOk])

/-- `resetSession()`: reassigns `sessionStart` and zeroes both counters. -/
def resetSession (now : Nat) (s : PMState) : PMState :=
  { s with sessionStart := now, filesEdited := 0, commandsRun := 0 }

/-- The heartbeat interval callback: fires only while the interval is
installed; returns unless connected with a client and a cached activity;
otherwise re-sends `lastActivity`. -/
def heartbeatTick (o : Orc) (s : PMState) : PMState × List Ev :=
  if s.heartbeatTimer then
    match s.lastActivity with
    | some a =>
      if s.connected && s.client.isSome then sendActivity o.sendOk a s
      else (s, [])
    | none => (s, [])
  else (s, [])

/-- The reconnect interval callback: fires only while the interval is
installed; if destroyed, stops the loop; otherwise awaits `connect()`. -/
def reconnectTick (o : Orc) (s : PMState) : PMState × List Ev :=
  if s.reconnectTimer then
    if s.destroyed then (stopReconnectLoop s, [])
    else
      let r := connect o s
      (r.1, r.2.2)
  else (s, [])

/-- The client's `"disconnected"` event handler (registered in `connect()`):
fires only while a client handle exists; sets `connected = false` and starts
the reconnect loop. -/
def transportClosed (s : PMState) : PMState × List Ev :=
  match s.client with
  | some _ => (startReconnectLoop { s with connected := false }, [])
  | none => (s, [])

/-- The operations that can act on a manager state: the public methods, the
two interval callbacks, and the transport-closed notification. -/
inductive Op where
  | connect
  | update (st : String) (ed : Option String)
  | clear
  | destroy
  | destroySync
  | heartbeatTick
  | reconnectTick
  | transportClosed
  | resetSession (now : Nat)

/-- One operation applied to a state under an oracle. -/
def step (op : Op) (o : Orc) (s : PMState) : PMState × List Ev :=
  match op with
  | .connect => let r := connect o s; (r.1, r.2.2)
  | .update st ed => update o st ed s
  | .clear => clear o s
  | .destroy => destroy o s
  | .destroySync => destroySync o s
  | .heartbeatTick => heartbeatTick o s
  | .reconnectTick => reconnectTick o s
  | .transportClosed => transportClosed s
  | .resetSession now => (resetSession now s, [])

/-- Running a sequence of operations, accumulating the event trace. -/
def run (l : List (Op × Orc)) (s : PMState) : PMState × List Ev :=
  match l with
  | [] => (s, [])
  | po :: rest =>
    let r := step po.1 po.2 s
    let r2 := run rest r.1
    (r2.1, r.2 ++ r2.2)

/-- The states a manager can be in at operation boundaries, starting from
construction. -/
inductive Reachable : PMState → Prop where
  | init : ∀ pn t0, Reachable (PMState.init pn t0)
  | step : ∀ s op o, Reachable s → Reachable (step op o s).1

/-- Number of login attempts in a trace. -/
def countLogins (tr : List Ev) : Nat :=
  (tr.filter fun e => match e with | .login _ => true | _ => false).length

/-- The payloads of the set-activity calls in a trace, in order. -/
def sentPayloads (tr : List Ev) : List Activity :=
  tr.filterMap fun e => match e with | .setAct a _ => some a | _ => none

/-- Whether an event is a clear-status request. -/
def isClearEv (e : Ev) : Bool :=
  match e with | .clearAct _ => true | _ => false

/-- JS `String.prototype.split` with a single-character separator, on the
character list of the string: never returns `[]`; `""` splits to `[""]`. -/
def jsSplitOn (sep : Char) : List Char → List (List Char)
  | [] => [[]]
  | c :: rest =>
    let r := jsSplitOn sep rest
    if c = sep then [] :: r
    else
      match r with
      | [] => [[c]]
      | g :: gs => (c :: g) :: gs

/-- `getProjectName(directory)`: `directory.split("/")`, then
`parts[parts.length - 1] || "Unknown Project"` (the empty string is falsy). -/
def getProjectName (directory : String) : String :=
  let parts := jsSplitOn '/' directory.data
  let lastPart := parts.getLast?.getD []
  if lastPart = [] then "Unknown Project" else String.mk lastPart

/-- Modelled from the spec wording for comparison: "the substring after the
last '/'" — the characters of the longest suffix containing no `sep`. -/
def lastSegment (sep : Char) (l : List Char) : List Char :=
  (l.reverse.takeWhile (fun c => c != sep)).reverse

/-- An awaited call to the external service, with the exception channel kept
explicit: a failing call rejects. -/
def extCall (ok : Bool) : Except String Unit :=
  if ok then Except.ok () else Except.error "external call failed"

/-- `sendActivity` with the exception channel explicit: the `try/catch`
around `setActivity` is the match on `extCall`; the function itself never
rejects. -/
def sendActivityE (ok : Bool) (a : Activity) (s : PMState) :
    Except String (PMState × List Ev) :=
  match s.client with
  | some _ =>
    match extCall ok with
    | Except.ok _ => Except.ok (s, [Ev.setAct a true])
    | Except.error _ =>
      Except.ok (startReconnectLoop { s with connected := false }, [Ev.setAct a false])
  | none => Except.ok (startReconnectLoop { s with connected := false }, [])

/-- `connect` with the exception channel explicit.  The big `try/catch` of
the source is the two `Except.error`-matches: a rejected login, or a
rejection escaping the replay send (dead code, since `sendActivityE` never
rejects), falls into the catch block; nothing escapes `connectE` itself. -/
def connectE (o : Orc) (s : PMState) : Except String (PMState × Bool × List Ev) :=
  match connectGuard s with
  | some b => Except.ok (s, b, [])
  | none =>
    let s0 := connectEntry s
    let p : PMState × List Ev :=
      match s0.client with
      | some _ =>
        match extCall o.closeOk with
        | _ => ({ s0 with client := none }, [Ev.close o.closeOk])
      | none => (s0, [])
    let s1 := { p.1 with client := some p.1.nextHandle, nextHandle := p.1.nextHandle + 1 }
    match extCall o.loginOk with
    | Except.error _ =>
      Except.ok (startReconnectLoop { s1 with connected := false, connecting := false, client := none },
        false, p.2 ++ [Ev.login false])
    | Except.ok _ =>
      let s2 := stopReconnectLoop { s1 with connected := true, connecting := false }
      match (match s2.lastActivity with
             | some a => sendActivityE o.sendOk a s2
             | none => Except.ok (s2, [])) with
      | Except.error _ =>
        Except.ok (startReconnectLoop { s2 with connected := false, connecting := false, client := none },
          false, p.2 ++ [Ev.login true])
      | Except.ok q => Except.ok (startHeartbeat q.1, true, p.2 ++ [Ev.login true] ++ q.2)

/-- `update` with the exception channel explicit: the unprotected
`await this.connect()` would propagate a rejection of `connectE`. -/
def updateE (o : Orc) (st : String) (ed : Option String) (s : PMState) :
    Except String (PMState × List Ev) :=
  let a : Activity := ⟨mkDetails s.projectName ed, st, s.sessionStart⟩
  let s1 := { s with lastActivity := some a }
  if s1.connected && s1.client.isSome then
    sendActivityE o.sendOk a s1
  else
    match connectE o s1 with
    | Except.ok r => Except.ok (r.1, r.2.2)
    | Except.error e => Except.error e

/-- `clear` with the exception channel explicit: the `try/catch` around
`clearActivity` swallows the rejection. -/
def clearE (o : Orc) (s : PMState) : Except String (PMState × List Ev) :=
  let s1 := { s with lastActivity := none }
  if s1.connected && s1.client.isSome then
    match extCall o.clearOk with
    | Except.ok _ => Except.ok (s1, [Ev.clearAct true])
    | Except.error _ => Except.ok (s1, [Ev.clearAct false])
  else Except.ok (s1, [])

/-- `destroy` with the exception channel explicit: one `try/catch` around
`clearActivity` then `client.destroy()`, so a clear rejection skips the
close call. -/
def destroyE (o : Orc) (s : PMState) : Except String (PMState × List Ev) :=
  let s1 := { s with destroyed := true, heartbeatTimer := false, reconnectTimer := false }
  match s1.client with
  | none => Except.ok ({ s1 with connected := false, lastActivity := none }, [])
  | some _ =>
    let tr : List Ev :=
      match extCall o.clearOk with
      | Except.error _ => [Ev.clearAct false]
      | Except.ok _ =>
        match extCall o.closeOk with
        | _ => [Ev.clearAct true, Ev.close o.closeOk]
    Except.ok ({ s1 with client := none, connected := false, lastActivity := none }, tr)

/-- `destroySync` with the exception channel explicit: the non-waited
`client.destroy()` is wrapped in `try/catch`, its outcome unused. -/
def destroySyncE (o : Orc) (s : PMState) : Except String (PMState × List Ev) :=
  let s1 := { s with destroyed := true, heartbeatTimer := false, reconnectTimer := false }
  match s1.client with
  | none => Except.ok ({ s1 with connected := false }, [])
  | some _ =>
    match extCall o.closeOk with
    | _ => Except.ok ({ s1 with client := none, connected := false }, [Ev.close o.closeOk])

/-- Oracle under which every external call succeeds. -/
def okOrc : Orc := ⟨true, true, true, true⟩

/-- Oracle under which every external call fails. -/
def failOrc : Orc := ⟨false, false, false, false⟩

/-- Oracle under which login succeeds but sends fail. -/
def replayFailOrc : Orc := ⟨true, false, true, true⟩

/-- A sample presence payload. -/
def aEx : Activity := ⟨"p · x", "Editing", 0⟩

/-- An `update` while disconnected whose implicit connect fails, then a
reconnect tick whose login succeeds but whose replay send fails. -/
def sBadSeq : List (Op × Orc) :=
  [(Op.update "s1" none, failOrc), (Op.reconnectTick, replayFailOrc)]

/-- The state after `sBadSeq` from a fresh manager. -/
def sBad : PMState := (run sBadSeq (PMState.init "p" 0)).1

/-- The state after one fully successful `connect()` from a fresh manager. -/
def sConn : PMState := (step Op.connect okOrc (PMState.init "p" 0)).1

/-- The state after one failed `connect()` from a fresh manager. -/
def sRc : PMState := (step Op.connect failOrc (PMState.init "p" 0)).1

/-- A connected state with a cached presence payload. -/
def sCE : PMState := { sConn with lastActivity := some aEx }

/-- A fresh manager with a cached presence payload. -/
def sLa : PMState := { PMState.init "myproj" 0 with lastActivity := some aEx }

/-- A destroyed fresh manager. -/
def sDestroyed : PMState := { PMState.init "p" 0 with destroyed := true }

/-- A fresh manager with a `connect()` in flight. -/
def sConnecting : PMState := { PMState.init "p" 0 with connecting := true }

/-- A sequence of `update` calls issued while disconnected: each one's
implicit `connect()` fails (the manager stays disconnected throughout). -/
def runUpdates (calls : List (String × Option String)) (s : PMState) : PMState :=
  calls.foldl (fun t c => (update failOrc c.1 c.2 t).1) s

/-- A fully shut-down manager: the latched state `destroySync` leaves
behind. -/
def Dead (s : PMState) : Prop :=
  s.destroyed = true ∧ s.connected = false ∧ s.client = none
  ∧ s.heartbeatTimer = false ∧ s.reconnectTimer = false

/-- The inductive invariant of the manager at operation boundaries:
connected implies a live client and not destroyed; the reconnect timer runs
only while disconnected and not destroyed; the heartbeat timer only while not
destroyed; and the `connecting` re-entrancy flag is clear. -/
def MInv (s : PMState) : Prop :=
  (s.connected = true → s.client.isSome = true)
  ∧ (s.connected = true → s.destroyed = false)
  ∧ (s.reconnectTimer = true → s.connected = false ∧ s.destroyed = false)
  ∧ (s.heartbeatTimer = true → s.destroyed = false)
  ∧ s.connecting = false

lemma minv_init (pn : String) (t0 : Nat) : MInv (PMState.init pn t0) := by
  simp [MInv, PMState.init]

lemma minv_sendActivity (ok : Bool) (a : Activity) (s : PMState)
    (h : MInv s) (hd : s.destroyed = false) : MInv (sendActivity ok a s).1 := by
  obtain ⟨cl, cn, cg, de, la, hb, rc, ss, fe, cr, pn, nh⟩ := s
  simp only at hd
  subst hd
  rcases cl with _ | c <;> cases ok <;> cases rc <;>
    simp_all [MInv, sendActivity, startReconnectLoop]

set_option maxRecDepth 4000 in
lemma minv_connect (o : Orc) (s : PMState) (h : MInv s) : MInv (connect o s).1 := by
  obtain ⟨lo, so, co, ko⟩ := o
  obtain ⟨cl, cn, cg, de, la, hb, rc, ss, fe, cr, pn, nh⟩ := s
  obtain ⟨A, B, C, D, E⟩ := h
  simp only at A B C D E
  subst E
  cases de
  · cases cn <;> rcases cl with _ | c <;> cases lo <;> rcases la with _ | a <;>
      cases so <;> cases rc <;>
      simp_all [MInv, connect, connectGuard, connectEntry, connectBody,
        sendActivity, startHeartbeat, startReconnectLoop, stopReconnectLoop]
  · exact ⟨A, B, C, D, rfl⟩

lemma minv_step (op : Op) (o : Orc) (s : PMState) (h : MInv s) :
    MInv (step op o s).1 := by
  cases op with
  | connect => exact minv_connect o s h
  | update st ed =>
    have h2 : MInv { s with lastActivity := some (Activity.mk (mkDetails s.projectName ed) st s.sessionStart) } := h
    by_cases hc : s.connected = true ∧ s.client.isSome = true
    · have hd : s.destroyed = false := h.2.1 hc.1
      simpa [step, update, hc.1, hc.2] using
        minv_sendActivity o.sendOk _ _ h2 hd
    · have hcc : (s.connected && s.client.isSome) = false := by
        rcases Bool.eq_false_or_eq_true s.connected with h1 | h1 <;>
          rcases Bool.eq_false_or_eq_true s.client.isSome with h2 | h2 <;>
          simp_all
      simpa [step, update, hcc] using minv_connect o _ h2
  | clear =>
    have h2 : MInv { s with lastActivity := none } := h
    by_cases hc : (s.connected && s.client.isSome) = true <;>
      simp_all [step, clear, MInv]
  | destroy =>
    obtain ⟨cl, cn, cg, de, la, hb, rc, ss, fe, cr, pn, nh⟩ := s
    rcases cl with _ | c <;> simp_all [step, destroy, MInv]
  | destroySync =>
    obtain ⟨cl, cn, cg, de, la, hb, rc, ss, fe, cr, pn, nh⟩ := s
    rcases cl with _ | c <;> simp_all [step, destroySync, MInv]
  | heartbeatTick =>
    by_cases hh : s.heartbeatTimer = true
    · have hd : s.destroyed = false := h.2.2.2.1 hh
      rcases hla : s.lastActivity with _ | a
      · simpa [step, heartbeatTick, hh, hla] using h
      · by_cases hc : (s.connected && s.client.isSome) = true
        · simpa [step, heartbeatTick, hh, hla, hc] using
            minv_sendActivity o.sendOk a s h hd
        · simpa [step, heartbeatTick, hh, hla, hc] using h
    · simp only [Bool.not_eq_true] at hh
      simpa [step, heartbeatTick, hh] using h
  | reconnectTick =>
    by_cases hr : s.reconnectTimer = true
    · have hd : s.destroyed = false := (h.2.2.1 hr).2
      simpa [step, reconnectTick, hr, hd] using minv_connect o s h
    · simp only [Bool.not_eq_true] at hr
      simpa [step, reconnectTick, hr] using h
  | transportClosed =>
    obtain ⟨cl, cn, cg, de, la, hb, rc, ss, fe, cr, pn, nh⟩ := s
    obtain ⟨A, B, C, D, E⟩ := h
    simp only at A B C D E
    rcases cl with _ | c <;> cases de <;> cases rc <;>
      simp_all [step, transportClosed, startReconnectLoop, MInv]
  | resetSession now =>
    exact h

lemma reachable_inv (s : PMState) (h : Reachable s) : MInv s := by
  induction h with
  | init pn t0 => exact minv_init pn t0
  | step s op o _ ih => exact minv_step op o s ih

lemma sendActivity_frame (ok : Bool) (a : Activity) (s : PMState) :
    (sendActivity ok a s).1.lastActivity = s.lastActivity
    ∧ (sendActivity ok a s).1.projectName = s.projectName
    ∧ (sendActivity ok a s).1.sessionStart = s.sessionStart := by
  obtain ⟨cl, cn, cg, de, la, hb, rc, ss, fe, cr, pn, nh⟩ := s
  rcases cl with _ | c <;> cases ok <;> cases de <;> cases rc <;>
    simp_all [sendActivity, startReconnectLoop]

lemma connect_frame (o : Orc) (s : PMState) :
    (connect o s).1.lastActivity = s.lastActivity
    ∧ (connect o s).1.projectName = s.projectName
    ∧ (connect o s).1.sessionStart = s.sessionStart := by
  obtain ⟨lo, so, co, ko⟩ := o
  obtain ⟨cl, cn, cg, de, la, hb, rc, ss, fe, cr, pn, nh⟩ := s
  cases de <;> cases cn <;> cases cg <;> rcases cl with _ | c <;> cases lo <;>
    rcases la with _ | a <;> cases so <;> cases rc <;>
    simp_all [connect, connectGuard, connectEntry, connectBody, sendActivity,
      startHeartbeat, startReconnectLoop, stopReconnectLoop]

lemma update_fields (o : Orc) (st : String) (ed : Option String) (s : PMState) :
    (update o st ed s).1.lastActivity
      = some (Activity.mk (mkDetails s.projectName ed) st s.sessionStart)
    ∧ (update o st ed s).1.projectName = s.projectName
    ∧ (update o st ed s).1.sessionStart = s.sessionStart := by
  by_cases hc : (s.connected && s.client.isSome) = true
  · have h := sendActivity_frame o.sendOk
      (Activity.mk (mkDetails s.projectName ed) st s.sessionStart)
      { s with lastActivity := some (Activity.mk (mkDetails s.projectName ed) st s.sessionStart) }
    simpa [update, hc] using h
  · have h := connect_frame o
      { s with lastActivity := some (Activity.mk (mkDetails s.projectName ed) st s.sessionStart) }
    simp only [Bool.not_eq_true] at hc
    simpa [update, hc] using h

lemma sendActivityE_ok (ok : Bool) (a : Activity) (s : PMState) :
    sendActivityE ok a s = Except.ok (sendActivity ok a s) := by
  rcases hcl : s.client with _ | c <;> cases ok <;>
    simp [sendActivityE, sendActivity, extCall, hcl]

lemma connectE_ok (o : Orc) (s : PMState) :
    connectE o s = Except.ok (connect o s) := by
  rcases hg : connectGuard s with _ | b
  · obtain ⟨lo, so, co, ko⟩ := o
    rcases hcl : s.client with _ | c <;> cases lo <;>
      rcases hla : s.lastActivity with _ | a <;> cases so <;>
      simp [connectE, connect, connectBody, connectEntry, extCall,
        sendActivityE, sendActivity, stopReconnectLoop, startHeartbeat,
        startReconnectLoop, hg, hcl, hla]
  · simp [connectE, connect, hg]

lemma updateE_ok (o : Orc) (st : String) (ed : Option String) (s : PMState) :
    updateE o st ed s = Except.ok (update o st ed s) := by
  by_cases hc : (({ s with lastActivity := some (Activity.mk (mkDetails s.projectName ed) st s.sessionStart) } : PMState).connected
      && ({ s with lastActivity := some (Activity.mk (mkDetails s.projectName ed) st s.sessionStart) } : PMState).client.isSome) = true
  · simp [updateE, update, hc, sendActivityE_ok]
  · simp only [Bool.not_eq_true] at hc
    simp [updateE, update, hc, connectE_ok]

lemma clearE_ok (o : Orc) (s : PMState) : clearE o s = Except.ok (clear o s) := by
  obtain ⟨lo, so, co, ko⟩ := o
  cases co <;> simp_all [clearE, clear, extCall] <;> (try (split <;> rfl))

lemma destroyE_ok (o : Orc) (s : PMState) : destroyE o s = Except.ok (destroy o s) := by
  obtain ⟨lo, so, co, ko⟩ := o
  rcases hcl : s.client with _ | c <;> cases co <;>
    simp_all [destroyE, destroy, extCall]

lemma destroySyncE_ok (o : Orc) (s : PMState) :
    destroySyncE o s = Except.ok (destroySync o s) := by
  rcases hcl : s.client with _ | c <;>
    simp_all [destroySyncE, destroySync, extCall]

lemma countLogins_append (t1 t2 : List Ev) :
    countLogins (t1 ++ t2) = countLogins t1 + countLogins t2 := by
  simp [countLogins, List.filter_append]

lemma dead_step (op : Op) (o : Orc) (s : PMState) (h : Dead s) :
    Dead (step op o s).1 ∧ (step op o s).1.nextHandle = s.nextHandle
    ∧ countLogins (step op o s).2 = 0 := by
  obtain ⟨h1, h2, h3, h4, h5⟩ := h
  cases op <;>
    simp_all [step, connect, connectGuard, update, clear, destroy, destroySync,
      heartbeatTick, reconnectTick, transportClosed, resetSession, Dead,
      countLogins]

lemma dead_run (l : List (Op × Orc)) (s : PMState) (h : Dead s) :
    Dead (run l s).1 ∧ (run l s).1.nextHandle = s.nextHandle
    ∧ countLogins (run l s).2 = 0 := by
  induction l generalizing s with
  | nil => exact ⟨h, rfl, rfl⟩
  | cons po rest ih =>
    obtain ⟨hd1, hd2, hd3⟩ := dead_step po.1 po.2 s h
    obtain ⟨hr1, hr2, hr3⟩ := ih (step po.1 po.2 s).1 hd1
    refine ⟨hr1, by simp [run, hr2, hd2], ?_⟩
    simp [run, countLogins_append, hd3, hr3]

lemma destroySync_dead (o : Orc) (s : PMState) : Dead (destroySync o s).1 := by
  rcases hcl : s.client with _ | c <;> simp_all [destroySync, Dead]

lemma runUpdates_lastActivity (c : String × Option String)
    (rest : List (String × Option String)) (s : PMState) :
    (runUpdates (c :: rest) s).lastActivity
      = some (Activity.mk (mkDetails s.projectName (((c :: rest).getLast?).getD c).2)
          (((c :: rest).getLast?).getD c).1 s.sessionStart)
    ∧ (runUpdates (c :: rest) s).projectName = s.projectName
    ∧ (runUpdates (c :: rest) s).sessionStart = s.sessionStart := by
  induction rest generalizing c s with
  | nil =>
    have h := update_fields failOrc c.1 c.2 s
    simpa [runUpdates, List.getLast?] using h
  | cons c2 rest2 ih =>
    have hstep := update_fields failOrc c.1 c.2 s
    have ihall := ih c2 (update failOrc c.1 c.2 s).1
    have hrw : runUpdates (c :: c2 :: rest2) s
        = runUpdates (c2 :: rest2) (update failOrc c.1 c.2 s).1 := by
      simp [runUpdates, List.foldl]
    rw [hrw, List.getLast?_cons_cons]
    have hgl : (c2 :: rest2).getLast? = some ((c2 :: rest2).getLast (by simp)) :=
      List.getLast?_eq_getLast _ _
    rw [hgl] at ihall ⊢
    refine ⟨?_, ?_, ?_⟩
    · rw [ihall.1]
      simp [hstep.2.1, hstep.2.2]
    · rw [ihall.2.1, hstep.2.1]
    · rw [ihall.2.2, hstep.2.2]

lemma jsSplitOn_ne_nil (sep : Char) (l : List Char) : jsSplitOn sep l ≠ [] := by
  induction l with
  | nil => simp [jsSplitOn]
  | cons c rest ih =>
    by_cases hc : c = sep
    · simp [jsSplitOn, hc]
    · rcases hr : jsSplitOn sep rest with _ | ⟨g, gs⟩
      · exact absurd hr ih
      · simp [jsSplitOn, hc, hr]

lemma takeWhile_append_stop (p : Char → Bool) (y : Char) (hy : p y = false)
    (xs : List Char) : (xs ++ [y]).takeWhile p = xs.takeWhile p := by
  induction xs with
  | nil => simp [List.takeWhile, hy]
  | cons x xs ih =>
    cases hp : p x <;> simp [List.takeWhile, hp, ih]

lemma takeWhile_append_of_mem (p : Char → Bool) (y : Char) (hy : p y = false)
    (xs ys : List Char) (hmem : y ∈ xs) : (xs ++ ys).takeWhile p = xs.takeWhile p := by
  induction xs with
  | nil => simp at hmem
  | cons x xs ih =>
    cases hp : p x
    · simp [List.takeWhile, hp]
    · have hx : y ∈ xs := by
        rcases List.mem_cons.mp hmem with h | h
        · subst h; rw [hy] at hp; exact absurd hp (by simp)
        · exact h
      simp [List.takeWhile, hp, ih hx]

lemma jsSplitOn_no_sep (sep : Char) (l : List Char) (h : sep ∉ l) :
    jsSplitOn sep l = [l] := by
  induction l with
  | nil => rfl
  | cons c rest ih =>
    have hc : ¬ c = sep := fun he => h (he ▸ List.mem_cons_self c rest)
    have hrest : sep ∉ rest := fun he => h (List.mem_cons_of_mem c he)
    simp [jsSplitOn, hc, ih hrest]

lemma jsSplitOn_long_mem (sep : Char) (l : List Char)
    (h : 2 ≤ (jsSplitOn sep l).length) : sep ∈ l := by
  induction l with
  | nil => simp [jsSplitOn] at h
  | cons c rest ih =>
    by_cases hc : c = sep
    · exact hc ▸ List.mem_cons_self c rest
    · rcases hr : jsSplitOn sep rest with _ | ⟨g, gs⟩
      · exact absurd hr (jsSplitOn_ne_nil sep rest)
      · rw [jsSplitOn, hr] at h
        simp only [hc, if_false] at h
        have : 2 ≤ (jsSplitOn sep rest).length := by
          rw [hr]
          simpa using h
        exact List.mem_cons_of_mem c (ih this)

lemma jsSplitOn_mem_length (sep : Char) (l : List Char) (h : sep ∈ l) :
    2 ≤ (jsSplitOn sep l).length := by
  induction l with
  | nil => simp at h
  | cons c rest ih =>
    by_cases hc : c = sep
    · rcases hr : jsSplitOn sep rest with _ | ⟨g, gs⟩
      · exact absurd hr (jsSplitOn_ne_nil sep rest)
      · simp [jsSplitOn, hc, hr]
    · have hrest : sep ∈ rest := by
        rcases List.mem_cons.mp h with he | he
        · exact absurd he.symm hc
        · exact he
      rcases hr : jsSplitOn sep rest with _ | ⟨g, gs⟩
      · exact absurd hr (jsSplitOn_ne_nil sep rest)
      · have h2 := ih hrest
        rw [hr] at h2
        simp only [List.length_cons] at h2
        have : 1 ≤ gs.length := by omega
        simp [jsSplitOn, hc, hr]
        omega

lemma jsSplitOn_getLast (sep : Char) (l : List Char) :
    ((jsSplitOn sep l).getLast?).getD [] = lastSegment sep l := by
  induction l with
  | nil => simp [jsSplitOn, lastSegment]
  | cons c rest ih =>
    by_cases hc : c = sep
    · subst hc
      rcases hr : jsSplitOn c rest with _ | ⟨g, gs⟩
      · exact absurd hr (jsSplitOn_ne_nil c rest)
      · have h1 : ((jsSplitOn c (c :: rest)).getLast?).getD []
            = ((jsSplitOn c rest).getLast?).getD [] := by
          simp [jsSplitOn, hr]
        have h2 : lastSegment c (c :: rest) = lastSegment c rest := by
          unfold lastSegment
          rw [List.reverse_cons, takeWhile_append_stop _ c (by simp)]
        rw [h1, h2, ih]
    · have hpc : (c != sep) = true := by simp [hc]
      rcases hr : jsSplitOn sep rest with _ | ⟨g, gs⟩
      · exact absurd hr (jsSplitOn_ne_nil sep rest)
      · rcases gs with _ | ⟨g2, gs2⟩
        · have hnosep : sep ∉ rest := by
            intro hmem
            have hlen := jsSplitOn_mem_length sep rest hmem
            rw [hr] at hlen
            simp at hlen
          have hg : g = rest := by
            have h1 := jsSplitOn_no_sep sep rest hnosep
            rw [hr] at h1
            exact (List.cons.inj h1).1
          have hrhs : lastSegment sep (c :: rest) = c :: rest := by
            unfold lastSegment
            rw [List.reverse_cons]
            have hall : ∀ x ∈ rest.reverse ++ [c], (x != sep) = true := by
              intro x hx
              rcases List.mem_append.mp hx with h1 | h1
              · have hxr : x ∈ rest := List.mem_reverse.mp h1
                have hxs : x ≠ sep := fun he => hnosep (he ▸ hxr)
                simp [hxs]
              · simp only [List.mem_singleton] at h1
                subst h1
                exact hpc
            rw [List.takeWhile_eq_self_iff.mpr hall]
            simp
          rw [hrhs]
          subst hg
          simp [jsSplitOn, hc, hr]
        · have hsep : sep ∈ rest := jsSplitOn_long_mem sep rest (by rw [hr]; simp)
          have h2 : lastSegment sep (c :: rest) = lastSegment sep rest := by
            unfold lastSegment
            rw [List.reverse_cons,
              takeWhile_append_of_mem _ sep (by simp) _ _ (List.mem_reverse.mpr hsep)]
          rw [h2, ← ih, hr]
          simp [jsSplitOn, hc, hr]

lemma sConn_reachable : Reachable sConn :=
  Reachable.step (PMState.init "p" 0) Op.connect okOrc (Reachable.init "p" 0)

/-- C1: every `update(state, detail)` overwrites `lastPresence` with the
triple `(details, state, sessionStart)` — `details` being
`"<projectName> · <detail>"` for non-empty detail and
`"Working on <projectName>"` otherwise — before any send is attempted
(for every oracle, i.e. regardless of connectivity); and for every
non-empty sequence of `update` calls issued while disconnected (each
implicit reconnect failing), `lastPresence` afterwards is the payload of
the last call. -/
theorem update_always_caches (o : Orc) (st : String) (ed : Option String)
    (s : PMState) (c : String × Option String)
    (rest : List (String × Option String)) :
    (update o st ed s).1.lastActivity
      = some (Activity.mk (mkDetails s.projectName ed) st s.sessionStart)
    ∧ (s.connected = false →
        (runUpdates (c :: rest) s).lastActivity
          = some (Activity.mk (mkDetails s.projectName (((c :: rest).getLast?).getD c).2)
              (((c :: rest).getLast?).getD c).1 s.sessionStart)) :=
  ⟨(update_fields o st ed s).1, fun _ => (runUpdates_lastActivity c rest s).1⟩

/-- C1 witness: concrete evaluation at a fresh `"myproj"` manager. -/
theorem update_always_caches_witness :
    (update okOrc "Editing" (some "main.go") (PMState.init "myproj" 0)).1.lastActivity
      = some (Activity.mk "myproj · main.go" "Editing" 0)
    ∧ (runUpdates [("Idle", some ""), ("Thinking...", none)]
        (PMState.init "myproj" 0)).lastActivity
      = some (Activity.mk "Working on myproj" "Thinking..." 0) := by
  have h := update_always_caches okOrc "Editing" (some "main.go")
    (PMState.init "myproj" 0) ("Idle", some "") [("Thinking...", none)]
  exact ⟨h.1.trans (by decide), (h.2 rfl).trans (by decide)⟩

/-- C2 counterexample: the claimed mutual exclusion of the two timers fails
on a reachable state: an `update` while disconnected (whose implicit connect
fails), followed by a reconnect tick whose login succeeds but whose replay
send fails, leaves the heartbeat timer active while disconnected — and both
timers active at once. -/
theorem heartbeat_active_while_disconnected :
    Reachable sBad ∧ sBad.heartbeatTimer = true ∧ sBad.connected = false
    ∧ sBad.reconnectTimer = true := by
  refine ⟨?_, by decide, by decide, by decide⟩
  exact Reachable.step _ Op.reconnectTick replayFailOrc
    (Reachable.step _ (Op.update "s1" none) failOrc (Reachable.init "p" 0))

/-- C2 (amended): in every reachable state the reconnect timer is active
only while not Connected and not destroyed, and the heartbeat timer only
while not destroyed; the heartbeat timer can, however, be active while
disconnected (together with the reconnect timer) after a `connect()` whose
login succeeded but whose replay send failed. -/
theorem timers_partial_exclusion (s : PMState) (h : Reachable s) :
    (s.reconnectTimer = true → s.connected = false ∧ s.destroyed = false)
    ∧ (s.heartbeatTimer = true → s.destroyed = false) :=
  ⟨(reachable_inv s h).2.2.1, (reachable_inv s h).2.2.2.1⟩

/-- C2 witness: the amended invariant evaluated on the reachable state after
one failed connect (reconnect timer active). -/
theorem timers_partial_exclusion_witness :
    (sRc.reconnectTimer = true → sRc.connected = false ∧ sRc.destroyed = false)
    ∧ (sRc.heartbeatTimer = true → sRc.destroyed = false) :=
  timers_partial_exclusion sRc
    (Reachable.step (PMState.init "p" 0) Op.connect failOrc (Reachable.init "p" 0))

/-- C3: `connect()` is a no-op returning `true` when already connected (and
not destroyed), a no-op returning `false` when destroyed or when a connect
is in flight (`connecting` set); and when a first `connect()` passes the
guards, a second call issued while the first is in flight returns `false`
with no state change and no external calls, so the pair performs exactly one
login attempt. -/
theorem connect_idempotent_guards (o : Orc) (s : PMState) :
    (s.destroyed = true → connect o s = (s, false, []))
    ∧ (s.destroyed = false → (s.connected && s.client.isSome) = true →
        connect o s = (s, true, []))
    ∧ (s.destroyed = false → (s.connected && s.client.isSome) = false →
        s.connecting = true → connect o s = (s, false, []))
    ∧ (connectGuard s = none →
        connect o s = connectBody o (connectEntry s)
        ∧ connect o (connectEntry s) = (connectEntry s, false, [])
        ∧ countLogins (connectBody o (connectEntry s)).2.2 = 1) := by
  refine ⟨?_, ?_, ?_, ?_⟩
  · intro h
    simp [connect, connectGuard, h]
  · intro h1 h2
    simp [connect, connectGuard, h1, h2]
  · intro h1 h2 h3
    simp [connect, connectGuard, h1, h2, h3]
  · intro hg
    have hd : s.destroyed = false := by
      by_contra hx
      simp only [Bool.not_eq_false] at hx
      simp [connectGuard, hx] at hg
    have hcn : (s.connected && s.client.isSome) = false := by
      by_contra hx
      simp only [Bool.not_eq_false] at hx
      simp [connectGuard, hd, hx] at hg
    have hcg : s.connecting = false := by
      by_contra hx
      simp only [Bool.not_eq_false] at hx
      simp [connectGuard, hd, hcn, hx] at hg
    refine ⟨by simp [connect, hg], ?_, ?_⟩
    · simp [connect, connectGuard, connectEntry, hd, hcn]
    · obtain ⟨lo, so, co, ko⟩ := o
      rcases hcl : s.client with _ | c <;> cases lo <;>
        rcases hla : s.lastActivity with _ | a <;> cases so <;>
        simp [connectBody, connectEntry, sendActivity, countLogins,
          stopReconnectLoop, startHeartbeat, startReconnectLoop, hcl, hla]

/-- C3 witness: the four guard behaviours evaluated on concrete states. -/
theorem connect_idempotent_guards_witness :
    connect okOrc sDestroyed = (sDestroyed, false, [])
    ∧ connect okOrc sConn = (sConn, true, [])
    ∧ connect okOrc sConnecting = (sConnecting, false, [])
    ∧ connect okOrc (connectEntry (PMState.init "p" 0))
        = (connectEntry (PMState.init "p" 0), false, [])
    ∧ countLogins (connectBody okOrc (connectEntry (PMState.init "p" 0))).2.2 = 1 :=
  ⟨(connect_idempotent_guards okOrc sDestroyed).1 rfl,
   (connect_idempotent_guards okOrc sConn).2.1 rfl rfl,
   (connect_idempotent_guards okOrc sConnecting).2.2.1 rfl rfl rfl,
   ((connect_idempotent_guards okOrc (PMState.init "p" 0)).2.2.2 rfl).2.1,
   ((connect_idempotent_guards okOrc (PMState.init "p" 0)).2.2.2 rfl).2.2⟩

/-- C4: a failing send while Connected (in any reachable such state)
unconditionally demotes the manager to disconnected and leaves the reconnect
timer active when `sendActivity` returns; and the failure never escapes as
an error (`sendActivityE` returns `Except.ok`). -/
theorem send_failure_starts_reconnect (s : PMState) (a : Activity)
    (h1 : Reachable s) (h2 : s.connected = true) :
    (sendActivity false a s).1.connected = false
    ∧ (sendActivity false a s).1.reconnectTimer = true
    ∧ sendActivityE false a s = Except.ok (sendActivity false a s) := by
  have hi := reachable_inv s h1
  have hd : s.destroyed = false := hi.2.1 h2
  have hrcf : s.reconnectTimer = false := by
    rcases Bool.eq_false_or_eq_true s.reconnectTimer with h | h
    · rw [(hi.2.2.1 h).1] at h2
      exact absurd h2 (by simp)
    · exact h
  refine ⟨?_, ?_, sendActivityE_ok false a s⟩ <;>
    rcases hcl : s.client with _ | c <;>
      simp [sendActivity, startReconnectLoop, hcl, hd, hrcf]

/-- C4 witness: evaluated on the reachable connected state after one
successful connect. -/
theorem send_failure_starts_reconnect_witness :
    (sendActivity false aEx sConn).1.connected = false
    ∧ (sendActivity false aEx sConn).1.reconnectTimer = true
    ∧ sendActivityE false aEx sConn = Except.ok (sendActivity false aEx sConn) :=
  send_failure_starts_reconnect sConn aEx sConn_reachable rfl

/-- C5: a `connect()` whose login succeeds, from a non-connected,
non-destroyed, non-connecting state, returns `true` (even if the replay
send fails), attempts to send the cached `lastPresence` payload exactly
once when one is present (and sends nothing otherwise), and — whenever the
replay does not fail — ends Connected with the reconnect loop cancelled and
the heartbeat running. -/
theorem connect_success_replays (o : Orc) (s : PMState) (hlo : o.loginOk = true)
    (hd : s.destroyed = false) (hcg : s.connecting = false)
    (hcn : s.connected = false) :
    (connect o s).2.1 = true
    ∧ sentPayloads (connect o s).2.2
      = (match s.lastActivity with | some a => [a] | none => [])
    ∧ ((s.lastActivity = none ∨ o.sendOk = true) →
        (connect o s).1.connected = true
        ∧ (connect o s).1.reconnectTimer = false
        ∧ (connect o s).1.heartbeatTimer = true) := by
  obtain ⟨lo, so, co, ko⟩ := o
  simp only at hlo
  subst hlo
  rcases hcl : s.client with _ | c <;> rcases hla : s.lastActivity with _ | a <;>
    cases so <;> cases hrc : s.reconnectTimer <;>
    simp_all [connect, connectGuard, connectEntry, connectBody, sendActivity,
      sentPayloads, stopReconnectLoop, startHeartbeat, startReconnectLoop]

/-- C5 witness: evaluated on a fresh manager holding a cached payload, with
every external call succeeding. -/
theorem connect_success_replays_witness :
    (connect okOrc sLa).2.1 = true
    ∧ sentPayloads (connect okOrc sLa).2.2
      = (match sLa.lastActivity with | some a => [a] | none => [])
    ∧ ((sLa.lastActivity = none ∨ okOrc.sendOk = true) →
        (connect okOrc sLa).1.connected = true
        ∧ (connect okOrc sLa).1.reconnectTimer = false
        ∧ (connect okOrc sLa).1.heartbeatTimer = true) :=
  connect_success_replays okOrc sLa rfl rfl rfl rfl

/-- C6 counterexample: on a connected state with a live client and a
displayed status, `destroySync()` issues no clear-status call at all (its
trace holds only the non-waited client close), whereas the asynchronous
`destroy()` does clear — refuting the part of the claim that says
`destroySync` best-effort clears the displayed status. -/
theorem destroySync_no_clear_call :
    sCE.connected = true ∧ sCE.client.isSome = true
    ∧ sCE.lastActivity.isSome = true
    ∧ (destroySync okOrc sCE).2.filter isClearEv = []
    ∧ (destroy okOrc sCE).2.filter isClearEv = [Ev.clearAct true] := by
  refine ⟨by decide, by decide, by decide, by decide, by decide⟩

/-- C6 (amended): `destroySync()` sets the destroyed latch, stops both
timers, best-effort closes the client handle without waiting for or
depending on the outcome of the close (for every oracle the state is the
same), and issues no clear-status call — clearing the displayed status is
left to the connection closing. -/
theorem destroySync_behaviour (o : Orc) (s : PMState) :
    (destroySync o s).1.destroyed = true
    ∧ (destroySync o s).1.heartbeatTimer = false
    ∧ (destroySync o s).1.reconnectTimer = false
    ∧ (destroySync o s).1.connected = false
    ∧ (destroySync o s).1.client = none
    ∧ (destroySync o s).2
      = (match s.client with | some _ => [Ev.close o.closeOk] | none => [])
    ∧ (destroySync o s).2.filter isClearEv = [] := by
  rcases hcl : s.client with _ | c <;> simp [destroySync, isClearEv, hcl]

/-- C7: after `destroySync()`, every sequence of further operations leaves
the manager destroyed, disconnected, without a client handle and with both
timers stopped; no new client handle is ever created (the handle counter is
unchanged) and no login is ever attempted. -/
theorem destroySync_is_terminal (s : PMState) (o : Orc) (l : List (Op × Orc)) :
    (run l (destroySync o s).1).1.destroyed = true
    ∧ (run l (destroySync o s).1).1.connected = false
    ∧ (run l (destroySync o s).1).1.client = none
    ∧ (run l (destroySync o s).1).1.heartbeatTimer = false
    ∧ (run l (destroySync o s).1).1.reconnectTimer = false
    ∧ (run l (destroySync o s).1).1.nextHandle = (destroySync o s).1.nextHandle
    ∧ countLogins (run l (destroySync o s).1).2 = 0 := by
  obtain ⟨h1, h2, h3⟩ := dead_run l (destroySync o s).1 (destroySync_dead o s)
  exact ⟨h1.1, h1.2.1, h1.2.2.1, h1.2.2.2.1, h1.2.2.2.2, h2, h3⟩

/-- C8: none of the public operations ever raises to its caller, for every
behaviour of the external service: the translations with the exception
channel kept explicit always return `Except.ok`, agreeing with the total
functions. -/
theorem public_ops_never_raise (o : Orc) (st : String) (ed : Option String)
    (s : PMState) :
    connectE o s = Except.ok (connect o s)
    ∧ updateE o st ed s = Except.ok (update o st ed s)
    ∧ clearE o s = Except.ok (clear o s)
    ∧ destroyE o s = Except.ok (destroy o s)
    ∧ destroySyncE o s = Except.ok (destroySync o s) :=
  ⟨connectE_ok o s, updateE_ok o st ed s, clearE_ok o s, destroyE_ok o s,
   destroySyncE_ok o s⟩

/-- C9: for every directory string the derived display project name is the
substring after the last '/' when that substring is non-empty, and
"Unknown Project" when it is empty; in particular "/home/u/myproj" yields
"myproj". -/
theorem getProjectName_spec :
    (∀ d : String, getProjectName d
      = if lastSegment '/' d.data = [] then "Unknown Project"
        else String.mk (lastSegment '/' d.data))
    ∧ getProjectName "/home/u/myproj" = "myproj" := by
  constructor
  · intro d
    simp only [getProjectName]
    rw [jsSplitOn_getLast]
  · decide

/-- C10: in every reachable state, `connected = true` implies the client
handle is non-null; and every operation preserves this (from any state
satisfying the manager invariant). -/
theorem connected_has_client (s : PMState) (h : Reachable s) :
    (s.connected = true → s.client.isSome = true)
    ∧ ∀ (s2 : PMState) (op : Op) (o : Orc), MInv s2 →
        ((step op o s2).1.connected = true → (step op o s2).1.client.isSome = true) :=
  ⟨(reachable_inv s h).1, fun s2 op o h2 => (minv_step op o s2 h2).1⟩

/-- C10 witness: evaluated on the reachable connected state after one
successful connect, and one concrete preservation instance. -/
theorem connected_has_client_witness :
    sConn.client.isSome = true
    ∧ ((step Op.connect okOrc (PMState.init "p" 0)).1.connected = true →
        (step Op.connect okOrc (PMState.init "p" 0)).1.client.isSome = true) :=
  ⟨(connected_has_client sConn sConn_reachable).1 rfl,
   (connected_has_client sConn sConn_reachable).2 (PMState.init "p" 0)
     Op.connect okOrc (minv_init "p" 0)⟩
